import Mathlib

set_option maxRecDepth 8000000

set_option maxHeartbeats 4000000

/-!
Shallow embedding of the signer package: OAuth 1.0a single-legged request
signing for LTI (escape, canonical parameter string, base string, HMAC-SHA1
signature, validation, and the form/header assembly entry points), together
with models of the Go standard-library primitives the package calls
(crypto/sha1, crypto/hmac, encoding/base64).

Go strings are byte strings; we model them as lists of naturals below 256.
Go maps are modelled as association lists whose key list is duplicate-free;
map iteration order is unspecified in Go, which is reflected by proving the
map-consuming operations invariant under permutation of the list.
-/

/-- Byte strings (Go string / byte slice). -/
abbrev Bytes := List Nat

/-- Bytes of an ASCII string literal: every literal in this development is
    ASCII, where the code points are the bytes. -/
def strBytes (s : String) : Bytes := s.data.map Char.toNat

/-- Parameter maps (Go map from string to string), as association lists. -/
abbrev Params := List (Bytes × Bytes)

/-- Go signer.isEscapable: true unless the byte is unreserved, that is
    A-Z (65-90), a-z (97-122), 0-9 (48-57), dash 45, dot 46, underscore 95
    or tilde 126. -/
def isEscapable (b : Nat) : Bool :=
  !((65 ≤ b && b ≤ 90) || (97 ≤ b && b ≤ 122) || (48 ≤ b && b ≤ 57) ||
    b == 45 || b == 46 || b == 95 || b == 126)

/-- The table "0123456789ABCDEF" indexed by the Go escape function. -/
def hexTable : Bytes := strBytes "0123456789ABCDEF"

/-- Go signer.escape: each escapable byte becomes a percent sign (37) followed
    by the two uppercase hex digits of its value; unreserved bytes pass through. -/
def escape (s : Bytes) : Bytes :=
  (s.map (fun c =>
    if isEscapable c then [37, hexTable.getD (c >>> 4) 0, hexTable.getD (c &&& 15) 0]
    else [c])).flatten

/-- First-match association lookup; models Go map indexing (key lists are
    duplicate-free wherever a map is read). -/
def lookupB (k : Bytes) : Params → Option Bytes
  | [] => none
  | kv :: rest => if kv.1 = k then some kv.2 else lookupB k rest

/-- Go map assignment m(k) = v: overwrite the existing binding for k, or append
    a fresh one. -/
def setParam (params : Params) (k v : Bytes) : Params :=
  if (lookupB k params).isSome then
    params.map (fun kv => if kv.1 = k then (k, v) else kv)
  else params ++ [(k, v)]

/-- Helper for dedupKeys: drop bindings whose key was already seen. -/
def dedupKeysAux (seen : List Bytes) : Params → Params
  | [] => []
  | kv :: rest =>
    if kv.1 ∈ seen then dedupKeysAux seen rest
    else kv :: dedupKeysAux (kv.1 :: seen) rest

/-- Collapse duplicate keys keeping the first binding of each key: models
    reading a Go url.Values into a map with Get, which returns the first
    value of a key. -/
def dedupKeys (form : Params) : Params := dedupKeysAux [] form

/-- Go signer.sortKeys: the keys of the map sorted ascending by bytewise
    lexicographic order (sort.Strings). The association-list order stands in
    for Go map iteration order; sorting makes the result independent of it. -/
def sortKeys (params : Params) : List Bytes :=
  (params.map Prod.fst).insertionSort (· ≤ ·)

/-- Go Signer.escapeParams: the canonical parameter string; for each key in
    sorted order, escaped key, equals sign, escaped value, the pairs joined
    with ampersands. -/
def escapeParams (params : Params) : Bytes :=
  List.intercalate (strBytes "&")
    ((sortKeys params).map
      (fun k => escape k ++ strBytes "=" ++ escape ((lookupB k params).getD [])))

/-- Go signer.Signer: the signing context. -/
structure Signer where
  method : Bytes
  url : Bytes
  key : Bytes
  secret : Bytes
  body : Bytes
  form : Params

/-- Go Signer.createBaseString: the method (not escaped), the escaped url, and
    the escaping of the already-escaped canonical parameter string, joined
    with ampersands. -/
def createBaseString (s : Signer) (params : Params) : Bytes :=
  s.method ++ strBytes "&" ++ escape s.url ++ strBytes "&" ++ escape (escapeParams params)

/-- Reduction modulo 2 to the 32: Go uint32 arithmetic in crypto/sha1. -/
def m32 (x : Nat) : Nat := x % 4294967296

/-- Rotate a 32-bit word left by n bits. -/
def rotl (n x : Nat) : Nat := m32 (x <<< n) ||| (x >>> (32 - n))

/-- Big-endian byte serialisation of a value into n bytes. -/
def toBytesBE : Nat → Nat → Bytes
  | 0, _ => []
  | n + 1, v => toBytesBE n (v >>> 8) ++ [v &&& 255]

/-- Big-endian 32-bit words of a byte string (crypto/sha1 block parsing);
    a trailing group of fewer than four bytes cannot occur on padded input. -/
def wordsBE : Bytes → List Nat
  | a :: b :: c :: d :: rest =>
    ((((a <<< 8) ||| b) <<< 8 ||| c) <<< 8 ||| d) :: wordsBE rest
  | _ => []

/-- SHA-1 padding: one 128 byte, zeros until the length is 56 mod 64, then the
    bit length as a 64-bit big-endian integer. -/
def sha1Pad (msg : Bytes) : Bytes :=
  let l := msg.length
  msg ++ [128] ++ List.replicate ((64 + 56 - (l + 1) % 64) % 64) 0 ++ toBytesBE 8 (8 * l)

/-- Split a word stream into 16-word blocks. -/
def chunk16 : List Nat → List (List Nat)
  | w0 :: w1 :: w2 :: w3 :: w4 :: w5 :: w6 :: w7 ::
    w8 :: w9 :: w10 :: w11 :: w12 :: w13 :: w14 :: w15 :: rest =>
    [w0, w1, w2, w3, w4, w5, w6, w7, w8, w9, w10, w11, w12, w13, w14, w15] :: chunk16 rest
  | _ => []

/-- SHA-1 message schedule: extend the 16 block words by the given number of
    derived words (64 in use, giving 80 in total). -/
def sha1Sched (ws : List Nat) : Nat → List Nat
  | 0 => ws
  | n + 1 =>
    let ws2 := sha1Sched ws n
    let l := ws2.length
    ws2 ++ [rotl 1 ((ws2.getD (l - 3) 0 ^^^ ws2.getD (l - 8) 0) ^^^
                    (ws2.getD (l - 14) 0 ^^^ ws2.getD (l - 16) 0))]

/-- One SHA-1 round at index t with schedule word w. -/
def sha1Round (t w : Nat) : Nat × Nat × Nat × Nat × Nat → Nat × Nat × Nat × Nat × Nat
  | (a, b, c, d, e) =>
    let f :=
      if t < 20 then (b &&& c) ||| ((4294967295 ^^^ b) &&& d)
      else if t < 40 then (b ^^^ c) ^^^ d
      else if t < 60 then ((b &&& c) ||| (b &&& d)) ||| (c &&& d)
      else (b ^^^ c) ^^^ d
    let k :=
      if t < 20 then 1518500249
      else if t < 40 then 1859775393
      else if t < 60 then 2400959708
      else 3395469782
    (m32 (rotl 5 a + f + e + k + w), a, rotl 30 b, c, d)

/-- Run the SHA-1 rounds over a message schedule, starting at round index t. -/
def sha1Rounds : Nat → Nat × Nat × Nat × Nat × Nat → List Nat → Nat × Nat × Nat × Nat × Nat
  | _, st, [] => st
  | t, st, w :: ws => sha1Rounds (t + 1) (sha1Round t w st) ws

/-- Compress one 16-word block into the running hash state. -/
def sha1Block (h : Nat × Nat × Nat × Nat × Nat) (block : List Nat) : Nat × Nat × Nat × Nat × Nat :=
  match h, sha1Rounds 0 h (sha1Sched block 64) with
  | (h0, h1, h2, h3, h4), (a, b, c, d, e) =>
    (m32 (h0 + a), m32 (h1 + b), m32 (h2 + c), m32 (h3 + d), m32 (h4 + e))

/-- Go crypto/sha1: the 20-byte SHA-1 digest of a byte string. -/
def sha1 (msg : Bytes) : Bytes :=
  let st := (chunk16 (wordsBE (sha1Pad msg))).foldl sha1Block
    (1732584193, 4023233417, 2562383102, 271733878, 3285377520)
  toBytesBE 4 st.1 ++ toBytesBE 4 st.2.1 ++ toBytesBE 4 st.2.2.1 ++
  toBytesBE 4 st.2.2.2.1 ++ toBytesBE 4 st.2.2.2.2

/-- Go crypto/hmac over SHA-1: block size 64, keys longer than a block are
    hashed first, the key is zero-padded, inner pad byte 54, outer pad byte 92. -/
def hmacSha1 (key msg : Bytes) : Bytes :=
  let k1 := if 64 < key.length then sha1 key else key
  let k0 := k1 ++ List.replicate (64 - k1.length) 0
  sha1 ((k0.map (fun b => b ^^^ 92)) ++ sha1 ((k0.map (fun b => b ^^^ 54)) ++ msg))

/-- Go encoding/base64 StdEncoding alphabet. -/
def b64Table : Bytes :=
  strBytes "ABCDEFGHIJKLMNOPQRSTUVWXYZabcdefghijklmnopqrstuvwxyz0123456789+/"

/-- Index into the base64 alphabet. -/
def b64 (i : Nat) : Nat := b64Table.getD i 0

/-- Go encoding/base64 StdEncoding.EncodeToString, with padding (61 is the
    equals sign). -/
def base64Encode : Bytes → Bytes
  | [] => []
  | [a] => [b64 (a >>> 2), b64 ((a &&& 3) <<< 4), 61, 61]
  | [a, b] => [b64 (a >>> 2), b64 (((a &&& 3) <<< 4) ||| (b >>> 4)), b64 ((b &&& 15) <<< 2), 61]
  | a :: b :: c :: rest =>
    b64 (a >>> 2) :: b64 (((a &&& 3) <<< 4) ||| (b >>> 4)) ::
    b64 (((b &&& 15) <<< 2) ||| (c >>> 6)) :: b64 (c &&& 63) :: base64Encode rest

/-- Go Signer.signRequest: base64 of the HMAC-SHA1 of the base string, keyed by
    the secret with a single trailing ampersand appended. -/
def signRequest (s : Signer) (params : Params) : Bytes :=
  base64Encode (hmacSha1 (s.secret ++ strBytes "&") (createBaseString s params))

/-- Go Signer.bodyHash: base64 of the SHA-1 hash of the body. -/
def bodyHash (s : Signer) : Bytes := base64Encode (sha1 s.body)

/-- Error kinds of the signing entry points: entropy-source failure
    (util.RandomString returning an error) and the empty-form rejection
    of BuildAuthForm. -/
inductive SignErr where
  | randomGenerationError
  | emptyFormError
deriving DecidableEq

/-- Go Signer.addDefaultOAuthParams. The nonce argument is the result of the
    external random source util.RandomString(15): none models entropy failure,
    which is returned as an error before any entry is written. The timestamp
    is the decimal string of the external clock read. -/
def addDefaultOAuthParams (s : Signer) (nonce : Option Bytes) (ts : Bytes)
    (params : Params) : Except SignErr Params :=
  match nonce with
  | none => .error .randomGenerationError
  | some n =>
    let p1 := setParam params (strBytes "oauth_version") (strBytes "1.0")
    let p2 := setParam p1 (strBytes "oauth_nonce") n
    let p3 := setParam p2 (strBytes "oauth_timestamp") ts
    let p4 := setParam p3 (strBytes "oauth_consumer_key") s.key
    .ok (setParam p4 (strBytes "oauth_signature_method") (strBytes "HMAC-SHA1"))

/-- Go Signer.BuildAuthForm: rejects an empty form, injects the default OAuth
    parameters, signs, appends oauth_signature, and returns the canonical
    encoded form string. Go mutates s.Form in place; the returned pair carries
    both the form string and that final parameter map. -/
def buildAuthForm (s : Signer) (nonce : Option Bytes) (ts : Bytes) :
    Except SignErr (Bytes × Params) :=
  if s.form.length < 1 then .error .emptyFormError
  else
    match addDefaultOAuthParams s nonce ts s.form with
    | .error e => .error e
    | .ok p =>
      let p2 := setParam p (strBytes "oauth_signature") (signRequest s p)
      .ok (escapeParams p2, p2)

/-- Go Signer.BuildAuthHeader. The Go code discards the error value returned by
    addDefaultOAuthParams: on nonce failure the map is left without the default
    parameters and execution continues, returning a header and a nil error.
    Go map iteration order is unspecified, so the header segments are emitted
    here in sorted key order as one admissible order; the claims about this
    function concern only its error component, which is order-independent. -/
def buildAuthHeader (s : Signer) (nonce : Option Bytes) (ts : Bytes) :
    Except SignErr Bytes :=
  let params1 : Params :=
    match addDefaultOAuthParams s nonce ts [] with
    | .error _ => []
    | .ok p => p
  let params2 := setParam params1 (strBytes "oauth_body_hash") (bodyHash s)
  let params3 := setParam params2 (strBytes "oauth_signature") (signRequest s params2)
  .ok (strBytes "OAuth realm=\"\"" ++
    ((sortKeys params3).map (fun k =>
      strBytes "," ++ escape k ++ strBytes "=\"" ++
      escape ((lookupB k params3).getD []) ++ strBytes "\"")).flatten)

/-- Go SignedFormRequest: builds a Signer with method POST and delegates to
    BuildAuthForm (the http.Request construction around it is outside the
    model). -/
def signedFormRequest (url key secret : Bytes) (params : Params)
    (nonce : Option Bytes) (ts : Bytes) : Except SignErr (Bytes × Params) :=
  buildAuthForm
    { method := strBytes "POST", url := url, key := key, secret := secret,
      body := [], form := params } nonce ts

/-- Go ValidateSignature: reads the incoming form into a map (first value per
    key), pulls out oauth_signature (empty string when absent), deletes it,
    recomputes the signature and compares. The Signer is constructed from the
    url and secret alone, so its Method field is the empty string. -/
def validateSignature (url : Bytes) (form : Params) (secret : Bytes) : Bool :=
  let s : Signer :=
    { method := [], url := url, key := [], secret := secret, body := [], form := [] }
  let params := dedupKeys form
  let inSig := (lookupB (strBytes "oauth_signature") params).getD []
  let params2 := params.filter (fun kv => !(kv.1 == strBytes "oauth_signature"))
  inSig == signRequest s params2

/-- Uppercase hexadecimal digit of a value below 16, written arithmetically
    following the specification wording (48 is the zero digit, 55 + 10 is A). -/
def upperHexDigit (n : Nat) : Nat := if n < 10 then 48 + n else 55 + n

/-- The unreserved-byte classification exactly as the specification lists it:
    A-Z, a-z, 0-9, dash, dot, underscore, tilde. -/
def unreservedByte (b : Nat) : Prop :=
  (65 ≤ b ∧ b ≤ 90) ∨ (97 ≤ b ∧ b ≤ 122) ∨ (48 ≤ b ∧ b ≤ 57) ∨
  b = 45 ∨ b = 46 ∨ b = 95 ∨ b = 126

instance (b : Nat) : Decidable (unreservedByte b) := by
  unfold unreservedByte; infer_instance

/-- The escaper as the specification words it, for comparison with escape:
    unreserved bytes pass through, every other byte becomes a percent sign and
    the two uppercase hexadecimal digits of its value. -/
def escapeSpec (s : Bytes) : Bytes :=
  (s.map (fun b =>
    if unreservedByte b then [b]
    else [37, upperHexDigit (b / 16), upperHexDigit (b % 16)])).flatten

/-- The six-parameter vector of the specification's literal test data, listed
    deliberately out of key order. -/
def params6 : Params :=
  [(strBytes "oauth_version", strBytes "1.0"),
   (strBytes "oauth_nonce", strBytes "random"),
   (strBytes "oauth_timestamp", strBytes "timestamp"),
   (strBytes "oauth_consumer_key", strBytes "abc123"),
   (strBytes "oauth_body_hash", strBytes "bodyhash"),
   (strBytes "oauth_signature_method", strBytes "HMAC-SHA1")]

/-- The POST signer of the specification's literal test data. -/
def postSigner : Signer :=
  { method := strBytes "POST", url := strBytes "http://example.com",
    key := strBytes "abc123", secret := strBytes "secret", body := [], form := [] }

/-- The literal base string the specification gives for postSigner and params6. -/
def baseString6 : Bytes :=
  strBytes "POST&http%3A%2F%2Fexample.com&oauth_body_hash%3Dbodyhash%26oauth_consumer_key%3Dabc123%26oauth_nonce%3Drandom%26oauth_signature_method%3DHMAC-SHA1%26oauth_timestamp%3Dtimestamp%26oauth_version%3D1.0"

/-- The literal signature the specification gives for secret "secret" over
    baseString6. -/
def sig6 : Bytes := strBytes "6Te1LTOGEnM6qUYIpinnoVO4jms="

/-- An incoming form carrying params6 together with sig6, the signature that a
    POST-method recomputation with secret "secret" yields. -/
def form6sig : Params := params6 ++ [(strBytes "oauth_signature", sig6)]

/-- A concrete one-entry caller form for exercising the form signing round
    trip. -/
def c1form : Params := [(strBytes "a", strBytes "b")]

/-- The form-request round trip evaluated at concrete input: sign c1form for
    url http://example.com, key abc123, secret "secret", with nonce "random"
    and timestamp "timestamp", then validate the resulting parameter map with
    the same url and each of two secrets (the signing secret and a different
    one). -/
def c1RoundTrip : Except SignErr (Bool × Bool) :=
  (signedFormRequest (strBytes "http://example.com") (strBytes "abc123")
      (strBytes "secret") c1form (some (strBytes "random")) (strBytes "timestamp")).map
    (fun pr => (validateSignature (strBytes "http://example.com") pr.2 (strBytes "secret"),
                validateSignature (strBytes "http://example.com") pr.2 (strBytes "wrong")))

theorem toBytesBE_length (n : Nat) : ∀ v, (toBytesBE n v).length = n := by
  induction n with
  | zero => intro v; rfl
  | succ m ih => intro v; simp [toBytesBE, ih]

theorem sha1_length (msg : Bytes) : (sha1 msg).length = 20 := by
  simp [sha1, toBytesBE_length]

theorem hmacSha1_length (key msg : Bytes) : (hmacSha1 key msg).length = 20 := by
  simp [hmacSha1, sha1_length]

theorem base64Encode_ne_nil : ∀ {l : Bytes}, l ≠ [] → base64Encode l ≠ []
  | [], h => absurd rfl h
  | [_], _ => by simp [base64Encode]
  | [_, _], _ => by simp [base64Encode]
  | _ :: _ :: _ :: _, _ => by simp [base64Encode]

theorem hexTable_eq : ∀ n < 16, hexTable.getD n 0 = upperHexDigit n := by decide

theorem isEscapable_iff (b : Nat) : isEscapable b = false ↔ unreservedByte b := by
  simp [isEscapable, unreservedByte]
  omega

theorem escape_cons (a : Nat) (t : Bytes) :
    escape (a :: t) =
      (if isEscapable a then [37, hexTable.getD (a >>> 4) 0, hexTable.getD (a &&& 15) 0]
       else [a]) ++ escape t := rfl

theorem escape_eq_escapeSpec {s : Bytes} (h : ∀ b ∈ s, b < 256) : escape s = escapeSpec s := by
  unfold escape escapeSpec
  congr 1
  apply List.map_congr_left
  intro b hb
  dsimp only
  by_cases hu : unreservedByte b
  · have hf := (isEscapable_iff b).2 hu
    rw [if_neg (by rw [hf]; exact Bool.false_ne_true), if_pos hu]
  · have he : isEscapable b = true := by
      cases hie : isEscapable b
      · exact absurd ((isEscapable_iff b).1 hie) hu
      · rfl
    have hdiv : b >>> 4 = b / 16 := by rw [Nat.shiftRight_eq_div_pow]
    have hmod : b &&& 15 = b % 16 := by
      have := Nat.and_pow_two_sub_one_eq_mod b 4
      norm_num at this
      exact this
    have hd16 : b / 16 < 16 := Nat.div_lt_of_lt_mul (by have := h b hb; omega)
    rw [if_pos he, if_neg hu, hdiv, hmod, hexTable_eq _ hd16,
      hexTable_eq _ (Nat.mod_lt b (by norm_num))]

theorem escape_unreserved {s : Bytes} (h : ∀ b ∈ s, unreservedByte b) : escape s = s := by
  induction s with
  | nil => rfl
  | cons a t ih =>
    have ha : isEscapable a = false := (isEscapable_iff a).2 (h a (List.mem_cons_self a t))
    have ht := ih (fun b hb => h b (List.mem_cons_of_mem a hb))
    rw [escape_cons, if_neg (by rw [ha]; exact Bool.false_ne_true), ht]
    rfl

theorem lookupB_eq_none {k : Bytes} : ∀ {l : Params}, (∀ kv ∈ l, kv.1 ≠ k) → lookupB k l = none
  | [], _ => rfl
  | kv :: rest, h => by
    simp only [lookupB, if_neg (h kv (List.mem_cons_self kv rest))]
    exact lookupB_eq_none (fun kv2 h2 => h kv2 (List.mem_cons_of_mem kv h2))

theorem mem_dedupKeysAux {kv : Bytes × Bytes} :
    ∀ {l : Params} {seen : List Bytes}, kv ∈ dedupKeysAux seen l → kv ∈ l := by
  intro l
  induction l with
  | nil => intro seen h; simp [dedupKeysAux] at h
  | cons a t ih =>
    intro seen h
    by_cases hs : a.1 ∈ seen
    · simp only [dedupKeysAux, if_pos hs] at h
      exact List.mem_cons_of_mem a (ih h)
    · simp only [dedupKeysAux, if_neg hs, List.mem_cons] at h
      rcases h with h | h
      · exact h ▸ List.mem_cons_self a t
      · exact List.mem_cons_of_mem a (ih h)

theorem sortKeys_perm {p q : Params} (h : p.Perm q) : sortKeys p = sortKeys q := by
  refine List.eq_of_perm_of_sorted ?_ (List.sorted_insertionSort _ _)
    (List.sorted_insertionSort _ _)
  exact (List.perm_insertionSort _ _).trans ((h.map Prod.fst).trans
    (List.perm_insertionSort _ _).symm)

theorem lookupB_perm {p q : Params} (h : p.Perm q) (hn : (p.map Prod.fst).Nodup) (k : Bytes) :
    lookupB k p = lookupB k q := by
  induction h with
  | nil => rfl
  | cons x h2 ih =>
    simp only [List.map_cons, List.nodup_cons] at hn
    simp only [lookupB]
    rw [ih hn.2]
  | swap x y l =>
    have hxy : y.1 ≠ x.1 := by
      simp only [List.map_cons, List.nodup_cons, List.mem_cons] at hn
      exact fun e => hn.1 (Or.inl e)
    by_cases h2 : x.1 = k
    · by_cases h1 : y.1 = k
      · exact absurd (h1.trans h2.symm) hxy
      · simp [lookupB, h1, h2]
    · by_cases h1 : y.1 = k <;> simp [lookupB, h1, h2]
  | trans h1 h2 ih1 ih2 =>
    rw [ih1 hn, ih2 (((h1.map Prod.fst).nodup_iff).1 hn)]

theorem escapeParams_perm {p q : Params} (hn : (p.map Prod.fst).Nodup) (h : p.Perm q) :
    escapeParams p = escapeParams q := by
  unfold escapeParams
  rw [sortKeys_perm h]
  congr 1
  apply List.map_congr_left
  intro k _
  rw [lookupB_perm h hn k]

theorem validateSignature_eq (url : Bytes) (form : Params) (secret : Bytes) :
    validateSignature url form secret =
      (((lookupB (strBytes "oauth_signature") (dedupKeys form)).getD []) ==
        signRequest
          { method := [], url := url, key := [], secret := secret, body := [], form := [] }
          ((dedupKeys form).filter (fun kv => !(kv.1 == strBytes "oauth_signature")))) := rfl

/-- C3: the base string is the method (not escaped), then an ampersand, then
    the escaped url, then an ampersand, then the escaping of the
    already-escaped canonical parameter string; in particular, for method
    POST, url http://example.com and the six literal oauth parameters, it
    equals the specification's literal vector. -/
theorem createBaseStringCorrect :
    (∀ (s : Signer) (params : Params), createBaseString s params =
      s.method ++ strBytes "&" ++ escape s.url ++ strBytes "&" ++
        escape (escapeParams params)) ∧
    createBaseString postSigner params6 = baseString6 :=
  ⟨fun _ _ => rfl, by decide⟩

/-- C5: escape maps each unreserved byte to itself and every other byte to a
    percent sign followed by the two uppercase hexadecimal digits of its
    value, one output group per input byte (stated against escapeSpec, the
    specification-worded escaper), and the four literal vectors hold. -/
theorem escapeCorrect :
    (∀ s : Bytes, (∀ b ∈ s, b < 256) → escape s = escapeSpec s) ∧
    escape (strBytes "&") = strBytes "%26" ∧
    escape (strBytes " ") = strBytes "%20" ∧
    escape (strBytes "@") = strBytes "%40" ∧
    escape (strBytes "abcd1234") = strBytes "abcd1234" :=
  ⟨fun _ h => escape_eq_escapeSpec h, by decide, by decide, by decide, by decide⟩

/-- Witness for C5 at a concrete byte string. -/
theorem escapeCorrectInst : escape (strBytes "a@z") = escapeSpec (strBytes "a@z") :=
  escapeCorrect.1 (strBytes "a@z") (by decide)

/-- C9: escaping is idempotent on strings composed solely of unreserved
    characters. -/
theorem escapeIdempotent :
    ∀ s : Bytes, (∀ b ∈ s, unreservedByte b) → escape (escape s) = s := by
  intro s h
  rw [escape_unreserved h, escape_unreserved h]

/-- Witness for C9 at a concrete unreserved string. -/
theorem escapeIdempotentInst : escape (escape (strBytes "abcd1234")) = strBytes "abcd1234" :=
  escapeIdempotent (strBytes "abcd1234") (by decide)

/-- C6: the canonical parameter string lists the pairs in ascending bytewise
    lexicographic key order, each key and value independently escaped, pairs
    joined as key=value with ampersands, and its value does not depend on the
    internal order of the mapping (permutation invariance for duplicate-free
    key sets). -/
theorem escapeParamsCanonical :
    (∀ p : Params, List.Sorted (· ≤ ·) (sortKeys p) ∧
      escapeParams p = List.intercalate (strBytes "&")
        ((sortKeys p).map
          (fun k => escape k ++ strBytes "=" ++ escape ((lookupB k p).getD [])))) ∧
    ∀ p q : Params, (p.map Prod.fst).Nodup → p.Perm q →
      escapeParams p = escapeParams q :=
  ⟨fun _ => ⟨List.sorted_insertionSort _ _, rfl⟩, fun _ _ hn h => escapeParams_perm hn h⟩

/-- Witness for C6: two orderings of the same two-entry mapping canonicalize
    identically. -/
theorem escapeParamsCanonicalInst :
    escapeParams [(strBytes "b", strBytes "2"), (strBytes "a", strBytes "1")] =
      escapeParams [(strBytes "a", strBytes "1"), (strBytes "b", strBytes "2")] :=
  escapeParamsCanonical.2
    [(strBytes "b", strBytes "2"), (strBytes "a", strBytes "1")]
    [(strBytes "a", strBytes "1"), (strBytes "b", strBytes "2")]
    (by decide) (by decide)

/-- C8: BuildAuthForm rejects an empty form with the empty-form error and never
    raises that error on a non-empty form when the nonce source succeeds. -/
theorem buildAuthFormEmptyCheck :
    (∀ (s : Signer) (nonce : Option Bytes) (ts : Bytes), s.form = [] →
      buildAuthForm s nonce ts = .error .emptyFormError) ∧
    ∀ (s : Signer) (n ts : Bytes), s.form ≠ [] →
      buildAuthForm s (some n) ts ≠ .error .emptyFormError := by
  constructor
  · intro s nonce ts h
    simp [buildAuthForm, h]
  · intro s n ts h
    have h1 : ¬ s.form.length < 1 :=
      fun hlt => h (List.length_eq_zero.1 (Nat.lt_one_iff.1 hlt))
    simp [buildAuthForm, addDefaultOAuthParams, h1]

/-- Witness for C8: an empty form errors, a one-entry form does not. -/
theorem buildAuthFormEmptyCheckInst :
    buildAuthForm
      { method := [], url := [], key := [], secret := [], body := [], form := [] }
      none [] = .error .emptyFormError ∧
    buildAuthForm
      { method := [], url := [], key := [], secret := [], body := [], form := c1form }
      (some (strBytes "random")) [] ≠ .error .emptyFormError :=
  ⟨buildAuthFormEmptyCheck.1 _ none [] rfl,
   buildAuthFormEmptyCheck.2 _ (strBytes "random") [] (by decide)⟩

/-- C7: on nonce-source failure, BuildAuthForm propagates the random-generation
    error, but BuildAuthHeader does not: the Go code discards the error from
    addDefaultOAuthParams and still returns a header with a nil error, so the
    claim that every default-injecting entry point, including BuildAuthHeader,
    aborts with the error fails on the code. Evaluated at a concrete signer. -/
theorem nonceFailurePropagation :
    (buildAuthHeader postSigner none (strBytes "timestamp")).isOk = true ∧
    buildAuthForm { postSigner with form := c1form } none (strBytes "timestamp") =
      .error .randomGenerationError :=
  ⟨rfl, rfl⟩

/-- C10: a form with no oauth_signature key at all never validates: the value
    compared is the empty string while the recomputed signature is the
    non-empty base64 encoding of a 20-byte digest. -/
theorem validateMissingSignature :
    ∀ (url : Bytes) (form : Params) (secret : Bytes),
      (∀ kv ∈ form, kv.1 ≠ strBytes "oauth_signature") →
      validateSignature url form secret = false := by
  intro url form secret h
  rw [validateSignature_eq]
  have hnone : lookupB (strBytes "oauth_signature") (dedupKeys form) = none := by
    apply lookupB_eq_none
    intro kv hkv
    exact h kv (mem_dedupKeysAux hkv)
  rw [hnone]
  have hne : signRequest
      { method := [], url := url, key := [], secret := secret, body := [], form := [] }
      ((dedupKeys form).filter (fun kv => !(kv.1 == strBytes "oauth_signature"))) ≠ [] := by
    unfold signRequest
    apply base64Encode_ne_nil
    intro he
    have h20 := hmacSha1_length (secret ++ strBytes "&")
      (createBaseString
        { method := [], url := url, key := [], secret := secret, body := [], form := [] }
        ((dedupKeys form).filter (fun kv => !(kv.1 == strBytes "oauth_signature"))))
    rw [he] at h20
    simp at h20
  cases hg : signRequest
      { method := [], url := url, key := [], secret := secret, body := [], form := [] }
      ((dedupKeys form).filter (fun kv => !(kv.1 == strBytes "oauth_signature"))) with
  | nil => exact absurd hg hne
  | cons a t => rfl

/-- Witness for C10 at a concrete signature-free form. -/
theorem validateMissingSignatureInst :
    validateSignature (strBytes "http://example.com") c1form (strBytes "secret") = false :=
  validateMissingSignature (strBytes "http://example.com") c1form (strBytes "secret")
    (by decide)

theorem sigPostEval : signRequest postSigner params6 = sig6 := by decide

/-- C4: the signature is a deterministic function of the secret and the base
    string alone, computed as base64 of the HMAC-SHA1 of the base string under
    the key secret plus one trailing ampersand; at the specification's literal
    vector it equals 6Te1LTOGEnM6qUYIpinnoVO4jms=. -/
theorem signRequestCorrect :
    (∀ (s1 s2 : Signer) (p1 p2 : Params), s1.secret = s2.secret →
      createBaseString s1 p1 = createBaseString s2 p2 →
      signRequest s1 p1 = signRequest s2 p2) ∧
    (∀ (s : Signer) (p : Params), signRequest s p =
      base64Encode (hmacSha1 (s.secret ++ strBytes "&") (createBaseString s p))) ∧
    signRequest postSigner params6 = sig6 := by
  refine ⟨?_, fun _ _ => rfl, sigPostEval⟩
  intro s1 s2 p1 p2 hs hb
  simp only [signRequest, hs, hb]

/-- Witness for C4: the determinism conjunct applied at a concrete input. -/
theorem signRequestCorrectInst :
    signRequest postSigner params6 = signRequest postSigner params6 :=
  signRequestCorrect.1 postSigner postSigner params6 params6 rfl rfl

/-- C2: ValidateSignature extracts the pairs, removes oauth_signature and
    compares byte-for-byte against a recomputed signature, but it rebuilds the
    base string with the Signer's Method left as the empty string, not fixed
    to POST as claimed: a form carrying exactly the POST-method recomputation
    sig6 (shown in the second conjunct, and carried by the form in the third)
    is rejected. -/
theorem validateSignatureMethodEval :
    validateSignature (strBytes "http://example.com") form6sig (strBytes "secret") = false ∧
    signRequest postSigner params6 = sig6 ∧
    lookupB (strBytes "oauth_signature") form6sig = some sig6 :=
  ⟨by decide, sigPostEval, by decide⟩

/-- C1: the round trip fails on the code: signing a (non-empty) form request
    via SignedFormRequest and validating the resulting parameter map with the
    same url and the same secret returns false, not true as claimed, because
    validation rebuilds the base string with an empty method while signing
    used POST; a different secret also returns false. Evaluated at concrete
    input. -/
theorem signThenValidateEval : c1RoundTrip.toOption = some (false, false) := by decide
